import Mathlib

/-!
Verification of the analysis scripts of the MFIN7037 assignment repository.

The Python sources are embedded shallowly:
* pandas `DataFrame`s become column-oriented association lists whose cells
  are `Option ℚ` (`none` models `NaN`);
* `_pick_best_model` (run_analysis.py) becomes `Q3.Select.pickBestModel`,
  parameterised by `score`, which stands for the external statsmodels value
  `float(fit_ols(tmp["fund_excess"], tmp[trial]).rsquared_adj)`; a `none`
  result models a `NaN` (or `-inf`) float, against which the strict
  comparison `ar2 > best_r2` is always False;
* `model_utils.fit_ols` on k regressors plus the intercept that
  `sm.add_constant` prepends is characterized by the defining property of
  the numpy pseudo-inverse solution — the returned coefficients minimize
  the residual sum of squares — and `regression_diagnostics` is an
  executable function of the data and those coefficients;
* the statistics engine of Question 1 is embedded over ℝ (it takes real
  n-th roots and square roots);
* `fetch_all_external_factors` (data_prep.py) becomes a pure function over
  an environment recording each network fetch's outcome and cache state.
-/

namespace Q3
namespace Select

/-- Column names of a pandas DataFrame. -/
abbrev Col := String

/-- One column of a DataFrame; `none` models a missing value (`NaN`). -/
abbrev Column := List (Option ℚ)

/-- A pandas DataFrame, column-oriented: list of (name, values).  Rows are
aligned by position; real DataFrames give every column the same length. -/
abbrev DataFrame := List (Col × Column)

/-- Lookup of a column by name (`df[c]`), `none` when absent. -/
def getCol (df : DataFrame) (c : Col) : Option Column :=
  (df.find? (fun p => p.1 = c)).map Prod.snd

/-- `c in df.columns`. -/
def hasCol (df : DataFrame) (c : Col) : Bool :=
  df.any (fun p => p.1 = c)

/-- Values of a column, `[]` when the column is absent. -/
def colVals (df : DataFrame) (c : Col) : Column :=
  (getCol df c).getD []

/-- `df[c].notna().sum()`: number of non-missing cells of column `c`. -/
def notnaCount (df : DataFrame) (c : Col) : Nat :=
  (colVals df c).countP (fun v => v.isSome)

/-- Number of rows of a DataFrame (all columns share one length). -/
def nRows (df : DataFrame) : Nat :=
  match df with
  | [] => 0
  | p :: _ => p.2.length

/-- Indices of the rows kept by `df[cs].dropna()`: those where every column
of `cs` is present. -/
def completeIdxs (df : DataFrame) (cs : List Col) : List Nat :=
  (List.range (nRows df)).filter
    (fun i => cs.all (fun c => ((colVals df c).getD i none).isSome))

/-- `df[cs].dropna()`: the sub-frame of the jointly complete rows. -/
def subFrame (df : DataFrame) (cs : List Col) : DataFrame :=
  let idxs := completeIdxs df cs
  cs.map (fun c => (c, idxs.map (fun i => (colVals df c).getD i none)))

/-- The `available` list of `_pick_best_model`: candidates that are columns
of the frame with strictly more than `minObs` non-missing observations. -/
def availableCands (df : DataFrame) (allCands : List Col) (minObs : Nat) :
    List Col :=
  allCands.filter (fun c => hasCol df c && decide (minObs < notnaCount df c))

/-- One iteration of the inner `for c in available` loop of
`_pick_best_model`.  The accumulator is `(best_r2, best_col)`; `none` in
its first component models the initial `-np.inf`.  A `none` oracle value
models a `NaN` (or `-inf`) adjusted R², for which the float test
`ar2 > best_r2` is False, so the candidate is never retained. -/
def innerStep (score : DataFrame → List Col → Option ℚ) (df : DataFrame)
    (minObs : Nat) (chosen : List Col) (acc : Option ℚ × Option Col)
    (c : Col) : Option ℚ × Option Col :=
  if c ∈ chosen then acc
  else
    let trial := chosen ++ [c]
    let tmp := subFrame df ("fund_excess" :: trial)
    if nRows tmp < minObs then acc
    else
      match score tmp trial, acc.1 with
      | none, _ => acc
      | some a, none => (some a, some c)
      | some a, some b => if b < a then (some a, some c) else acc

/-- The inner loop of `_pick_best_model`: scan `available` keeping the
candidate with the strictly largest adjusted R². -/
def roundBest (score : DataFrame → List Col → Option ℚ) (df : DataFrame)
    (minObs : Nat) (available : List Col) (chosen : List Col) :
    Option ℚ × Option Col :=
  available.foldl (innerStep score df minObs chosen) (none, none)

/-- The outer `for _ in range(max_factors)` loop of `_pick_best_model`. -/
def greedyLoop (score : DataFrame → List Col → Option ℚ) (df : DataFrame)
    (minObs : Nat) (available : List Col) : Nat → List Col → List Col
  | 0, chosen => chosen
  | n + 1, chosen =>
    match (roundBest score df minObs available chosen).2 with
    | none => chosen
    | some c => greedyLoop score df minObs available n (chosen ++ [c])

/-- The greedy phase of `_pick_best_model` (lines 69–84 of
run_analysis.py): the value of `chosen` when the loop exits, before the
`min_factors` adjustment. -/
def greedyChosen (score : DataFrame → List Col → Option ℚ) (df : DataFrame)
    (allCands : List Col) (minObs maxFactors : Nat) : List Col :=
  greedyLoop score df minObs (availableCands df allCands minObs) maxFactors []

/-- Embedding of `_pick_best_model(fund_excess, candidate_df,
all_candidates, min_obs, min_factors, max_factors)`.  The first argument
`score` stands for the statsmodels adjusted R² of the OLS fit on the
trial frame after dropna; `fundExcess` is the unused `fund_excess` parameter of
the source (the dependent variable is read from the frame column `"fund_excess"` instead). -/
def pickBestModel (score : DataFrame → List Col → Option ℚ)
    (fundExcess : List (Option ℚ)) (df : DataFrame) (allCands : List Col)
    (minObs : Nat := 60) (minFactors : Nat := 3) (maxFactors : Nat := 5) :
    List Col :=
  let _ := fundExcess
  let available := availableCands df allCands minObs
  let chosen := greedyChosen score df allCands minObs maxFactors
  if chosen.length < minFactors then
    if minFactors ≤ available.length then available.take minFactors
    else available
  else chosen

/-- The trial frame `candidate_df[["fund_excess"] + chosen + [c]].dropna()`
built for candidate `c` on top of `chosen`. -/
def trialFrame (df : DataFrame) (chosen : List Col) (c : Col) : DataFrame :=
  subFrame df ("fund_excess" :: (chosen ++ [c]))

/-- The adjusted R² the selector assigns to candidate `c` on top of
`chosen`. -/
def trialScore (score : DataFrame → List Col → Option ℚ) (df : DataFrame)
    (chosen : List Col) (c : Col) : Option ℚ :=
  score (trialFrame df chosen c) (chosen ++ [c])

/-- Candidate `c` survives both `continue` guards of the inner loop: it is
not yet chosen and its trial frame keeps at least `minObs` complete rows. -/
def Fittable (df : DataFrame) (minObs : Nat) (chosen : List Col)
    (c : Col) : Prop :=
  c ∉ chosen ∧ minObs ≤ nRows (trialFrame df chosen c)

instance (df : DataFrame) (minObs : Nat) (chosen : List Col) (c : Col) :
    Decidable (Fittable df minObs chosen c) :=
  inferInstanceAs (Decidable (_ ∧ _))

/-- Invariant of the inner-loop accumulator: either untouched
(`(-inf, None)`) or holding a fittable candidate together with its score. -/
def accInv (score : DataFrame → List Col → Option ℚ) (df : DataFrame)
    (minObs : Nat) (chosen : List Col) (acc : Option ℚ × Option Col) : Prop :=
  acc = (none, none) ∨
    ∃ b cb, acc = (some b, some cb) ∧
      Fittable df minObs chosen cb ∧ trialScore score df chosen cb = some b

/-- **C1** (counterexample data): seven months, candidates `a`, `b`, `d`.
`a` and `b` have four observations each but overlap the dependent
variable on no row; `d` has four observations and overlaps it on exactly
three rows.  With `min_obs = 3` the only trial that ever reaches the
regression is `["d"]`, fitted on three complete rows — one regressor plus
intercept, so the residual degrees of freedom are 1 and statsmodels
returns a finite adjusted R². -/
def exDf : DataFrame :=
  [("fund_excess",
    [none, none, none, none, some (1/100), some (3/100), some (2/100)]),
   ("a", [some 0, some (1/100), some 0, some (1/100), none, none, none]),
   ("b", [some (1/100), some 0, some (1/100), some 0, none, none, none]),
   ("d", [none, none, none, some (1/100), some (1/100), some (2/100),
     some (1/100)])]

/-- The adjusted-R² oracle for the counterexample.  On `exDf` with
`min_obs = 3` the selector consults it exactly once (trial `["d"]`, a
well-posed fit), and any finite value it returns produces the same
trace. -/
def exScore : DataFrame → List Col → Option ℚ := fun _ _ => some (1/2)

/-- C2 tie data: two candidates, both fully observed, equal scores. -/
def tieDf : DataFrame :=
  [("fund_excess", [some 0, some (1/100)]),
   ("a", [some 0, some 0]),
   ("b", [some 0, some 0])]

/-- A constant adjusted-R² oracle: every trial ties at the same value. -/
def tieScore : DataFrame → List Col → Option ℚ := fun _ _ => some 1

end Select
namespace OLS

/-!
Embedding of `model_utils.fit_ols` and `model_utils.regression_diagnostics`
for a fit on k regressors plus the intercept that `sm.add_constant`
prepends.  The numeric solver behind `sm.OLS(y, X).fit()` (the numpy
pseudo-inverse) is characterized by its defining property: the coefficient
vector it returns minimizes the residual sum of squares (`IsOLSFit`).
Every diagnostic is an executable function of the data and that
coefficient vector.  A float `NaN` (0.0/0.0, or division by a zero degree
of freedom) is modelled as `none`.
-/

/-- One observation: the k regressor values and the dependent value. -/
abbrev Obs := List ℚ × ℚ

/-- A regression sample, rows already past dropna. -/
abbrev Sample := List Obs

/-- `int(model.nobs)`. -/
def nObs (s : Sample) : ℕ := s.length

/-- Truncating dot product of two value lists. -/
def dot (us vs : List ℚ) : ℚ := (List.zipWith (fun a b => a * b) us vs).sum

/-- Fitted value of the coefficient vector `β` (intercept first, as
`sm.add_constant` orders the design matrix) at one observation. -/
def fittedAt (β : List ℚ) (o : Obs) : ℚ := dot β (1 :: o.1)

/-- Residual at one observation. -/
def residAt (β : List ℚ) (o : Obs) : ℚ := o.2 - fittedAt β o

/-- Residual sum of squares of a coefficient vector (`model.ssr` when `β`
is the fitted vector). -/
def ssrOf (β : List ℚ) (s : Sample) : ℚ :=
  (s.map (fun o => residAt β o ^ 2)).sum

/-- Mean of the dependent column. -/
def meanY (s : Sample) : ℚ := (s.map Prod.snd).sum / nObs s

/-- Centered total sum of squares of `y` (`model.centered_tss`). -/
def syy (s : Sample) : ℚ := (s.map (fun o => (o.2 - meanY s) ^ 2)).sum

/-- The defining property of the coefficients `sm.OLS(y, X).fit()` returns
(computed via the numpy pseudo-inverse): they minimize the residual sum of
squares over all coefficient vectors. -/
def IsOLSFit (β : List ℚ) (s : Sample) : Prop :=
  ∀ γ : List ℚ, ssrOf β s ≤ ssrOf γ s

/-- `model.rsquared`: `1 - ssr/centered_tss`; `none` models the `NaN` that
the float division produces when the centered total sum of squares is 0. -/
def rsquared (β : List ℚ) (s : Sample) : Option ℚ :=
  if syy s = 0 then none else some (1 - ssrOf β s / syy s)

/-- `model.rsquared_adj` for `k` regressors:
`1 - (1 - rsquared) * (nobs - 1) / (nobs - k - 1)`; `none` also when the
residual degrees of freedom are not positive (float division by zero). -/
def rsquaredAdj (β : List ℚ) (s : Sample) (k : ℕ) : Option ℚ :=
  match rsquared β s with
  | none => none
  | some r =>
    if nObs s ≤ k + 1 then none
    else some (1 - (1 - r) * ((nObs s : ℚ) - 1) / ((nObs s : ℚ) - (k : ℚ) - 1))

/-- Mean residual (pandas subtracts it inside `Series.std`). -/
def residMean (β : List ℚ) (s : Sample) : ℚ :=
  (s.map (residAt β)).sum / nObs s

/-- Sample variance of the residuals with `ddof=1`. -/
def residVar (β : List ℚ) (s : Sample) : ℚ :=
  (s.map (fun o => (residAt β o - residMean β s) ^ 2)).sum /
    ((nObs s : ℚ) - 1)

/-- `resid.std(ddof=1)`; `none` models the pandas `NaN` on fewer than two
observations. -/
noncomputable def residStd (β : List ℚ) (s : Sample) : Option ℝ :=
  if nObs s ≤ 1 then none else some (Real.sqrt ((residVar β s : ℝ)))

/-- Mean fitted value. -/
def meanFitted (β : List ℚ) (s : Sample) : ℚ :=
  (s.map (fittedAt β)).sum / nObs s

/-- Centered sum of squares of the fitted values. -/
def sff (β : List ℚ) (s : Sample) : ℚ :=
  (s.map (fun o => (fittedAt β o - meanFitted β s) ^ 2)).sum

/-- Centered cross product of `y` and the fitted values. -/
def syf (β : List ℚ) (s : Sample) : ℚ :=
  (s.map (fun o => (o.2 - meanY s) * (fittedAt β o - meanFitted β s))).sum

/-- `float(np.corrcoef(y, y_hat)[0, 1])`; `none` models the `NaN` when
either series is constant. -/
noncomputable def corrFittedActual (β : List ℚ) (s : Sample) : Option ℝ :=
  if syy s = 0 ∨ sff β s = 0 then none
  else some ((syf β s : ℝ) / (Real.sqrt (syy s) * Real.sqrt (sff β s)))

/-- The diagnostics dictionary of `regression_diagnostics`. -/
structure Diagnostics where
  n_obs : ℕ
  r2 : Option ℚ
  adj_r2 : Option ℚ
  alpha_monthly : ℚ
  alpha_annualized : ℚ
  resid_vol_monthly : Option ℝ
  resid_vol_annualized : Option ℝ
  corr_fitted_actual : Option ℝ

/-- Embedding of `model_utils.regression_diagnostics` for a fit of
`fit_ols` on `k` regressors with intercept, whose fitted coefficient
vector is `β` (so `β.headD 0` is `model.params["const"]`). -/
noncomputable def regression_diagnostics (β : List ℚ) (s : Sample) (k : ℕ) :
    Diagnostics where
  n_obs := nObs s
  r2 := rsquared β s
  adj_r2 := rsquaredAdj β s k
  alpha_monthly := β.headD 0
  alpha_annualized := (1 + β.headD 0) ^ 12 - 1
  resid_vol_monthly := residStd β s
  resid_vol_annualized := (residStd β s).map (fun v => v * Real.sqrt 12)
  corr_fitted_actual := corrFittedActual β s

/-- C7 counterexample sample: a constant dependent variable on three
observations of a single regressor (`nobs = regressors + 2`); the exact
least-squares fit there is intercept 1, slope 0. -/
def constYSample : Sample := [([1], 1), ([2], 1), ([3], 1)]

/-- C7 witness sample: a perfectly linear three-observation sample
(`y = x`), whose least-squares fit is intercept 0, slope 1. -/
def linYSample : Sample := [([1], 1), ([2], 2), ([3], 3)]

end OLS
end Q3
namespace Q1

/-!
Embedding of the Question 1 statistics engine
(`Q1_1_damodaran_empirical_properties.stats_table` and
`Q1_2_mpf_category_summary_stats.summary_stats`).  Tables reuse the
column-oriented `Option ℚ` frame model; statistics take values in ℝ (the
engine takes real n-th roots and square roots).  The final `.round(4)`
display rounding of the returned tables is not modelled; all claims
concern the computed statistics. -/

open Q3.Select

/-- The fixed candidate column list of `stats_table`. -/
def damodaranCols : List String :=
  ["SP500", "SmallCap", "TBill", "TBond10Y", "Baa", "RealEstate", "Gold"]

/-- `cols = [c for c in [...] if c in df.columns]`. -/
def statsCols (df : DataFrame) : List String :=
  damodaranCols.filter (fun c => hasCol df c)

/-- `df_ = df[cols].dropna()`: the jointly complete rows of the selected
columns. -/
def retained (df : DataFrame) : DataFrame := subFrame df (statsCols df)

/-- The values of column `c` among the retained rows. -/
def retainedVals (df : DataFrame) (c : String) : List ℚ :=
  (colVals (retained df) c).filterMap id

/-- Mean of a series (`Series.mean`). -/
def qmean (vs : List ℚ) : ℚ := vs.sum / vs.length

/-- Sample variance with `ddof=1`. -/
def qvar (vs : List ℚ) : ℚ :=
  (vs.map (fun v => (v - qmean vs) ^ 2)).sum / ((vs.length : ℚ) - 1)

/-- `Series.std(ddof=1)`; `none` models the pandas `NaN` on fewer than two
observations. -/
noncomputable def stdDev (vs : List ℚ) : Option ℝ :=
  if vs.length ≤ 1 then none else some (Real.sqrt ((qvar vs : ℝ)))

/-- The terminal wealth multiple `(1 + s).prod()` of a return series. -/
noncomputable def wealthMultiple (vs : List ℚ) : ℝ :=
  (vs.map (fun r : ℚ => (1 : ℝ) + (r : ℝ))).prod

/-- `(1 + s).prod() ** (1 / n) - 1`: geometric annualized return. -/
noncomputable def annualizedOf (vs : List ℚ) : ℝ :=
  wealthMultiple vs ^ ((1 : ℝ) / (vs.length : ℝ)) - 1

/-- One row of the table `stats_table` returns. -/
structure AssetStats where
  annualized_return : ℝ
  volatility : Option ℝ
  sharpe_ratio : Option ℝ

/-- The statistics `stats_table` computes for one asset column:
`geo_ret = (1+s).prod() ** (1/n) - 1` over the retained rows,
`vol = df_[cols].std()`, `excess = geo_ret - df_[rf_col].mean()`, and
`sharpe = excess / vol.replace(0, np.nan)` (a zero volatility becomes
`NaN`, and so does the quotient). -/
noncomputable def statsFor (df : DataFrame) (rf_col c : String) : AssetStats :=
  let vs := retainedVals df c
  let geo := annualizedOf vs
  let vol := stdDev vs
  let excess := geo - ((qmean (retainedVals df rf_col) : ℚ) : ℝ)
  { annualized_return := geo
    volatility := vol
    sharpe_ratio :=
      match vol with
      | none => none
      | some v => if v = 0 then none else some (excess / v) }

/-- Embedding of `stats_table` (Q1_1, lines 45–58), one entry per selected
column. -/
noncomputable def stats_table (df : DataFrame) (rf_col : String := "TBill") :
    List (String × AssetStats) :=
  (statsCols df).map (fun c => (c, statsFor df rf_col c))

/-- Non-missing values of a raw column (pandas `mean`/`std` skip `NaN`). -/
def colValsPresent (df : DataFrame) (c : String) : List ℚ :=
  (colVals df c).filterMap id

/-- One row of the table `summary_stats` returns. -/
structure CatStats where
  mean_return : ℚ
  volatility : Option ℝ
  excess_return : ℚ
  sharpe_ratio : Option ℝ

/-- The statistics `summary_stats` (Q1_2, lines 32–43) computes for one
category column: `mean_ret = df.mean()`, `vol = df.std()`,
`excess = mean_ret - risk_free_rate_annual`, and
`sharpe = excess / vol.replace(0, np.nan)`. -/
noncomputable def summaryFor (df : DataFrame) (rf : ℚ) (c : String) : CatStats :=
  let vs := colValsPresent df c
  let m := qmean vs
  let vol := stdDev vs
  let excess := m - rf
  { mean_return := m
    volatility := vol
    excess_return := excess
    sharpe_ratio :=
      match vol with
      | none => none
      | some v => if v = 0 then none else some (((excess : ℚ) : ℝ) / v) }

/-- Embedding of `summary_stats`, one entry per column of its frame. -/
noncomputable def summary_stats (df : DataFrame) (rf : ℚ := 2/100) :
    List (String × CatStats) :=
  df.map (fun p => (p.1, summaryFor df rf p.1))

/-- C5 data, full: `SP500` equals `[0,1,2]`, the other columns complete. -/
def t5a : DataFrame :=
  [("SP500", [some 0, some 1, some 2]),
   ("TBill", [some 0, some 0, some 0]),
   ("Gold", [some 0, some 0, some 0])]

/-- C5 data, same `SP500` column but `Gold` missing in the middle period. -/
def t5b : DataFrame :=
  [("SP500", [some 0, some 1, some 2]),
   ("TBill", [some 0, some 0, some 0]),
   ("Gold", [some 0, none, some 0])]

/-- C4 data: a constant asset column (zero volatility). -/
def tConst : DataFrame :=
  [("SP500", [some 1, some 1, some 1]),
   ("TBill", [some 0, some 0, some 0])]

/-- The spec's example series, [0.10, −0.05, 0.08]. -/
def exReturns : List ℚ := [1/10, -1/20, 2/25]

end Q1
namespace Q3

/-- Comparison of date-keyed rows by date, the order `sort_values("date")`
establishes. -/
def keyLE {β : Type} (a b : ℤ × β) : Prop := a.1 ≤ b.1

instance {β : Type} : DecidableRel (keyLE (β := β)) :=
  fun a b => inferInstanceAs (Decidable (a.1 ≤ b.1))

instance {β : Type} : IsTotal (ℤ × β) keyLE := ⟨fun a b => le_total a.1 b.1⟩

instance {β : Type} : IsTrans (ℤ × β) keyLE :=
  ⟨fun _ _ _ h1 h2 => le_trans h1 h2⟩

/-- Insert a key into a strictly sorted key list, keeping it strictly
sorted and duplicate-free (the index pandas `groupby`/outer-`merge`
produce). -/
def insertUniqueSorted (x : ℤ) : List ℤ → List ℤ
  | [] => [x]
  | y :: ys =>
    if x < y then x :: y :: ys
    else if x = y then y :: ys
    else y :: insertUniqueSorted x ys

/-- The ascending duplicate-free key list of a `groupby` / outer `merge`. -/
def uniqueSortedKeys (ms : List ℤ) : List ℤ :=
  ms.foldr insertUniqueSorted []

namespace Load

/-!
Embedding of `data_prep.load_fund_monthly_returns` and
`data_prep.load_ff5_monthly`.  A raw date is a calendar month index and a
day; `dt.to_period("M").dt.to_timestamp("M")` maps a date to its month
end, identified here with the month index.  `sort_values` is modelled by
insertion sort on the date key (the claims do not depend on how equal
dates are ordered). -/

/-- A parsed date: its calendar month index and the day within it. -/
structure RawDate where
  month : ℤ
  day : ℕ

/-- Embedding of `load_fund_monthly_returns`: map every date to its month
end, keep the date and return columns, drop rows with a missing return
(`dropna`; parsed dates are regarded as valid), and sort by date. -/
def load_fund_monthly_returns (rows : List (RawDate × Option ℚ)) :
    List (ℤ × ℚ) :=
  List.insertionSort keyLE
    (rows.filterMap (fun p => p.2.map (fun v => (p.1.month, v))))

/-- One raw row of the five-factor file: a date and the numeric factor
columns (`mkt_rf`, `smb`, `hml`, `rmw`, `cma`, `rf`), `none` where
`to_numeric(errors="coerce")` produced `NaN`. -/
abbrev FFRow := RawDate × List (Option ℚ)

/-- `(1.0 + x).prod() - 1.0` over one month's group of one factor column;
pandas `prod` skips missing values. -/
def compound (vals : List (Option ℚ)) : ℚ :=
  ((vals.filterMap id).map (fun v => 1 + v)).prod - 1

/-- Embedding of `load_ff5_monthly`: `groupby("month")` over the ascending
duplicate-free month keys, compounding each of the six factor columns
within the month. -/
def load_ff5_monthly (rows : List FFRow) : List (ℤ × List ℚ) :=
  (uniqueSortedKeys (rows.map (fun r => r.1.month))).map
    (fun m => (m, (List.range 6).map (fun j =>
      compound ((rows.filter (fun r => r.1.month = m)).map
        (fun r => r.2.getD j none)))))

/-- C9 counterexample input: two observations inside the same month. -/
def fundDup : List (RawDate × Option ℚ) :=
  [(⟨0, 5⟩, some 1), (⟨0, 20⟩, some 2)]

/-- C9 witness input: two observations in distinct months. -/
def fundOk : List (RawDate × Option ℚ) :=
  [(⟨0, 5⟩, some 1), (⟨1, 3⟩, some 2)]

end Load
namespace Fetch

/-!
Embedding of `data_prep.fetch_all_external_factors` and its helpers.  A
factor frame is a list of date-keyed rows of named values.  The outcome of
each network fetch and the pre-existing cache contents are an explicit
environment; `print`ed warnings are collected in the result.  A `cache_dir`
is always provided (as `run_analysis.main` does); a missing cached CSV is
`none`.  The JKP table is local-only and enters as an already-loaded frame
(`[]` when the optional CSV is absent). -/

/-- A monthly factor frame: rows of (month-end date, named values). -/
abbrev Frame := List (ℤ × List (String × ℚ))

/-- The dates of a frame. -/
def dates (f : Frame) : List ℤ := f.map Prod.fst

/-- The named values a frame holds at a date (`[]` off its index —
an outer merge fills `NaN` there). -/
def rowAt (f : Frame) (d : ℤ) : List (String × ℚ) :=
  ((f.find? (fun r => r.1 = d)).map Prod.snd).getD []

/-- `pd.DataFrame.sort_values("date")`. -/
def sortFrame (f : Frame) : Frame := List.insertionSort keyLE f

/-- `out.merge(part, on="date", how="outer")`: the union of the date
indices, ascending, each row holding the values of both sides. -/
def mergeOuter (a b : Frame) : Frame :=
  (uniqueSortedKeys (dates a ++ dates b)).map
    (fun d => (d, rowAt a d ++ rowAt b d))

/-- Embedding of `_load_csv_fallback`: re-read the cached frame, drop rows
with unparseable dates (cached dates are valid, so none), and sort by
date. -/
def loadCsvFallback (f : Frame) : Frame := sortFrame f

/-- Outcomes of the network fetches and the pre-existing cache state. -/
structure FetchEnv where
  fredFetch : Except String Frame
  aqrFetch : Except String Frame
  fredCache : Option Frame
  aqrCache : Option Frame
  jkp : Frame

/-- What `fetch_all_external_factors` produces: the merged frame, the
`print`ed warnings, and the cache files left behind. -/
structure FetchResult where
  frame : Frame
  warnings : List String
  fredCacheAfter : Option Frame
  aqrCacheAfter : Option Frame

/-- The FRED `try/except` block: on success cache and use the fetched
frame; on failure fall back to the cached CSV when it exists, else warn
and contribute an empty frame. -/
def fredStep (env : FetchEnv) : Frame × List String × Option Frame :=
  match env.fredFetch with
  | .ok df => (df, [], some df)
  | .error e =>
    match env.fredCache with
    | some c =>
      (loadCsvFallback c,
        ["FRED online failed (" ++ e ++ "); loaded local cache."], some c)
    | none =>
      ([], ["FRED online failed (" ++ e ++ "); no cache available."], none)

/-- The AQR `try/except` block; an empty successful fetch raises
`RuntimeError("AQR returned empty data")` inside the `try`, so it also
falls back. -/
def aqrStep (env : FetchEnv) : Frame × List String × Option Frame :=
  match env.aqrFetch with
  | .ok df =>
    if df.isEmpty then
      match env.aqrCache with
      | some c =>
        (loadCsvFallback c,
          ["AQR online failed (AQR returned empty data); loaded local cache."],
          some c)
      | none =>
        ([], ["AQR online failed (AQR returned empty data); no cache available."],
          none)
    else (df, [], some df)
  | .error e =>
    match env.aqrCache with
    | some c =>
      (loadCsvFallback c,
        ["AQR online failed (" ++ e ++ "); loaded local cache."], some c)
    | none =>
      ([], ["AQR online failed (" ++ e ++ "); no cache available."], none)

/-- The merge section of `fetch_all_external_factors`: start from FRED if
nonempty, fold in each nonempty part (outer join on date), then restrict
to dates from `start` on and sort. -/
def mergeAll (fred aqr jkp : Frame) (start : ℤ) : Frame :=
  let out0 : Frame := if fred.isEmpty then [] else fred
  let out1 : Frame :=
    if aqr.isEmpty then out0
    else if out0.isEmpty then aqr else mergeOuter out0 aqr
  let out2 : Frame :=
    if jkp.isEmpty then out1
    else if out1.isEmpty then jkp else mergeOuter out1 jkp
  if out2.isEmpty then out2
  else sortFrame (out2.filter (fun r => start ≤ r.1))

/-- Embedding of `fetch_all_external_factors` over an explicit
environment; the function is total — every failure path returns
normally. -/
def fetch_all_external_factors (env : FetchEnv) (start : ℤ) : FetchResult :=
  { frame := mergeAll (fredStep env).1 (aqrStep env).1 env.jkp start
    warnings := (fredStep env).2.1 ++ (aqrStep env).2.1
    fredCacheAfter := (fredStep env).2.2
    aqrCacheAfter := (aqrStep env).2.2 }

/-- C6 witness environment: both fetches nominally succeed, no caches. -/
def env6 : FetchEnv :=
  { fredFetch := .ok [(0, [("usd_ret", 1)])]
    aqrFetch := .ok [(0, [("tsmom", 1)])]
    fredCache := none
    aqrCache := none
    jkp := [] }

/-- C6 witness cache: a sorted nonempty two-month frame. -/
def df6 : Frame := [(0, [("usd_ret", 1)]), (1, [("usd_ret", 2)])]

end Fetch
namespace Select

lemma innerStep_of_not_fittable {score : DataFrame → List Col → Option ℚ}
    {df : DataFrame} {minObs : Nat} {chosen : List Col}
    {acc : Option ℚ × Option Col} {c : Col}
    (h : ¬ Fittable df minObs chosen c) :
    innerStep score df minObs chosen acc c = acc := by
  by_cases hmem : c ∈ chosen
  · simp [innerStep, hmem]
  · have hsize : nRows (trialFrame df chosen c) < minObs := by
      by_contra h2
      exact h ⟨hmem, Nat.le_of_not_lt h2⟩
    rw [trialFrame] at hsize
    simp only [innerStep, if_neg hmem, if_pos hsize]

lemma innerStep_of_fittable_nan {score : DataFrame → List Col → Option ℚ}
    {df : DataFrame} {minObs : Nat} {chosen : List Col}
    {acc : Option ℚ × Option Col} {c : Col}
    (h : Fittable df minObs chosen c)
    (hs : trialScore score df chosen c = none) :
    innerStep score df minObs chosen acc c = acc := by
  have hsize := Nat.not_lt.mpr h.2
  rw [trialFrame] at hsize
  rw [trialScore, trialFrame] at hs
  simp only [innerStep, if_neg h.1, if_neg hsize, hs]

lemma innerStep_of_fittable_val_none {score : DataFrame → List Col → Option ℚ}
    {df : DataFrame} {minObs : Nat} {chosen : List Col}
    {acc : Option ℚ × Option Col} {c : Col} {a : ℚ}
    (h : Fittable df minObs chosen c)
    (hs : trialScore score df chosen c = some a) (h1 : acc.1 = none) :
    innerStep score df minObs chosen acc c = (some a, some c) := by
  have hsize := Nat.not_lt.mpr h.2
  rw [trialFrame] at hsize
  rw [trialScore, trialFrame] at hs
  simp only [innerStep, if_neg h.1, if_neg hsize, hs, h1]

lemma innerStep_of_fittable_val_some {score : DataFrame → List Col → Option ℚ}
    {df : DataFrame} {minObs : Nat} {chosen : List Col}
    {acc : Option ℚ × Option Col} {c : Col} {a b : ℚ}
    (h : Fittable df minObs chosen c)
    (hs : trialScore score df chosen c = some a) (h1 : acc.1 = some b) :
    innerStep score df minObs chosen acc c =
      (if b < a then (some a, some c) else acc) := by
  have hsize := Nat.not_lt.mpr h.2
  rw [trialFrame] at hsize
  rw [trialScore, trialFrame] at hs
  simp only [innerStep, if_neg h.1, if_neg hsize, hs, h1]

lemma foldl_best_mono (score : DataFrame → List Col → Option ℚ) (df : DataFrame)
    (minObs : Nat) (chosen : List Col) :
    ∀ (l : List Col) (acc : Option ℚ × Option Col) (b : ℚ), acc.1 = some b →
      ∃ v, (l.foldl (innerStep score df minObs chosen) acc).1 = some v ∧ b ≤ v := by
  intro l
  induction l with
  | nil => exact fun acc b h => ⟨b, h, le_refl b⟩
  | cons a tl ih =>
    intro acc b h
    rw [List.foldl_cons]
    by_cases hf : Fittable df minObs chosen a
    · cases hsc : trialScore score df chosen a with
      | none =>
        rw [innerStep_of_fittable_nan hf hsc]
        exact ih acc b h
      | some v =>
        rw [innerStep_of_fittable_val_some hf hsc h]
        by_cases hlt : b < v
        · rw [if_pos hlt]
          obtain ⟨w, hw, hle⟩ := ih (some v, some a) v rfl
          exact ⟨w, hw, le_trans (le_of_lt hlt) hle⟩
        · rw [if_neg hlt]
          exact ih acc b h
    · rw [innerStep_of_not_fittable hf]
      exact ih acc b h

lemma foldl_best_dominates (score : DataFrame → List Col → Option ℚ)
    (df : DataFrame) (minObs : Nat) (chosen : List Col) :
    ∀ (l : List Col) (acc : Option ℚ × Option Col) (c' : Col) (a : ℚ),
      c' ∈ l → Fittable df minObs chosen c' →
      trialScore score df chosen c' = some a →
      ∃ v, (l.foldl (innerStep score df minObs chosen) acc).1 = some v ∧
        a ≤ v := by
  intro l
  induction l with
  | nil => intro acc c' a h; exact absurd h (List.not_mem_nil c')
  | cons x tl ih =>
    intro acc c' a hmem hfit hsc
    rcases List.mem_cons.mp hmem with heq | htl
    · subst heq
      rw [List.foldl_cons]
      cases hacc : acc.1 with
      | none =>
        rw [innerStep_of_fittable_val_none hfit hsc hacc]
        exact foldl_best_mono score df minObs chosen tl (some a, some c') a rfl
      | some b =>
        rw [innerStep_of_fittable_val_some hfit hsc hacc]
        by_cases hlt : b < a
        · rw [if_pos hlt]
          exact foldl_best_mono score df minObs chosen tl (some a, some c') a rfl
        · rw [if_neg hlt]
          obtain ⟨v, hv, hle⟩ := foldl_best_mono score df minObs chosen tl acc b hacc
          exact ⟨v, hv, le_trans (le_of_not_lt hlt) hle⟩
    · rw [List.foldl_cons]
      exact ih _ c' a htl hfit hsc

lemma foldl_shape (score : DataFrame → List Col → Option ℚ) (df : DataFrame)
    (minObs : Nat) (chosen : List Col) :
    ∀ (l : List Col) (acc : Option ℚ × Option Col),
      accInv score df minObs chosen acc →
      accInv score df minObs chosen (l.foldl (innerStep score df minObs chosen) acc) ∧
      ((l.foldl (innerStep score df minObs chosen) acc).2 = acc.2 ∨
        ∃ c, (l.foldl (innerStep score df minObs chosen) acc).2 = some c ∧
          c ∈ l ∧ Fittable df minObs chosen c) := by
  intro l
  induction l with
  | nil => exact fun acc h => ⟨h, Or.inl rfl⟩
  | cons a tl ih =>
    intro acc hacc
    rw [List.foldl_cons]
    have hstep : accInv score df minObs chosen (innerStep score df minObs chosen acc a) ∧
        ((innerStep score df minObs chosen acc a).2 = acc.2 ∨
          ((innerStep score df minObs chosen acc a).2 = some a ∧
            Fittable df minObs chosen a)) := by
      by_cases hf : Fittable df minObs chosen a
      · cases hsc : trialScore score df chosen a with
        | none =>
          rw [innerStep_of_fittable_nan hf hsc]
          exact ⟨hacc, Or.inl rfl⟩
        | some v =>
          rcases hacc with h0 | ⟨b, cb, hbc, hfit, hval⟩
          · subst h0
            rw [innerStep_of_fittable_val_none hf hsc rfl]
            exact ⟨Or.inr ⟨v, a, rfl, hf, hsc⟩, Or.inr ⟨rfl, hf⟩⟩
          · subst hbc
            rw [innerStep_of_fittable_val_some hf hsc rfl]
            by_cases hlt : b < v
            · rw [if_pos hlt]
              exact ⟨Or.inr ⟨v, a, rfl, hf, hsc⟩, Or.inr ⟨rfl, hf⟩⟩
            · rw [if_neg hlt]
              exact ⟨Or.inr ⟨b, cb, rfl, hfit, hval⟩, Or.inl rfl⟩
      · rw [innerStep_of_not_fittable hf]
        exact ⟨hacc, Or.inl rfl⟩
    obtain ⟨hinv', hd'⟩ := hstep
    obtain ⟨hinv, hd⟩ := ih _ hinv'
    refine ⟨hinv, ?_⟩
    rcases hd with h1 | ⟨c, hc, hcl, hcf⟩
    · rcases hd' with h2 | ⟨h2, hfa⟩
      · exact Or.inl (h1.trans h2)
      · exact Or.inr ⟨a, h1.trans h2, List.mem_cons_self a tl, hfa⟩
    · exact Or.inr ⟨c, hc, List.mem_cons_of_mem a hcl, hcf⟩

lemma foldl_skip (score : DataFrame → List Col → Option ℚ) (df : DataFrame)
    (minObs : Nat) (chosen : List Col) :
    ∀ (l : List Col) (acc : Option ℚ × Option Col),
      (∀ c ∈ l, ¬ Fittable df minObs chosen c ∨
        trialScore score df chosen c = none) →
      l.foldl (innerStep score df minObs chosen) acc = acc := by
  intro l
  induction l with
  | nil => intro acc _; rfl
  | cons a tl ih =>
    intro acc h
    have hstep : innerStep score df minObs chosen acc a = acc := by
      rcases h a (List.mem_cons_self a tl) with hnf | hnan
      · exact innerStep_of_not_fittable hnf
      · by_cases hf : Fittable df minObs chosen a
        · exact innerStep_of_fittable_nan hf hnan
        · exact innerStep_of_not_fittable hf
    rw [List.foldl_cons, hstep]
    exact ih acc (fun c hc => h c (List.mem_cons_of_mem a hc))

/-- The winner of a round is a not-yet-chosen fittable candidate whose
adjusted R² is an actual number, maximal among the defined (non-`NaN`)
adjusted R²s of all fittable candidates. -/
lemma roundBest_some_spec (score : DataFrame → List Col → Option ℚ)
    (df : DataFrame) (minObs : Nat) (avail chosen : List Col) (c : Col)
    (h : (roundBest score df minObs avail chosen).2 = some c) :
    c ∈ avail ∧ Fittable df minObs chosen c ∧
      ∃ bv, trialScore score df chosen c = some bv ∧
        ∀ c' ∈ avail, Fittable df minObs chosen c' →
          ∀ a, trialScore score df chosen c' = some a → a ≤ bv := by
  obtain ⟨hinv, hd⟩ := foldl_shape score df minObs chosen avail (none, none) (Or.inl rfl)
  rw [roundBest] at h
  rcases hd with h1 | ⟨cw, hcw, hcl, hcf⟩
  · exact absurd (h1.symm.trans h) (by simp)
  · obtain rfl : cw = c := Option.some.inj (hcw.symm.trans h)
    rcases hinv with h0 | ⟨b, cb, hbc, hfitb, hval⟩
    · rw [h0] at h; exact absurd h (by simp)
    · have hb2 : cb = cw := by
        rw [hbc] at h
        exact Option.some.inj h
      rw [hb2] at hval
      refine ⟨hcl, hcf, b, hval, ?_⟩
      intro c' hc' hfit' a hsc'
      obtain ⟨v, hv, hle⟩ := foldl_best_dominates score df minObs chosen avail
        (none, none) c' a hc' hfit' hsc'
      have hb1 : v = b := by
        rw [hbc] at hv
        exact (Option.some.inj hv).symm
      rw [← hb1]
      exact hle

/-- The round produces no winner exactly when every candidate either fails
a `continue` guard or has a `NaN` adjusted R² — the early-stop condition
of the selector. -/
lemma roundBest_none_iff (score : DataFrame → List Col → Option ℚ)
    (df : DataFrame) (minObs : Nat) (avail chosen : List Col) :
    (roundBest score df minObs avail chosen).2 = none ↔
      ∀ c ∈ avail, ¬ Fittable df minObs chosen c ∨
        trialScore score df chosen c = none := by
  constructor
  · intro h c hc
    by_cases hf : Fittable df minObs chosen c
    · refine Or.inr ?_
      cases hsc : trialScore score df chosen c with
      | none => rfl
      | some a =>
        exfalso
        obtain ⟨v, hv, _⟩ := foldl_best_dominates score df minObs chosen avail
          (none, none) c a hc hf hsc
        obtain ⟨hinv, _⟩ := foldl_shape score df minObs chosen avail (none, none)
          (Or.inl rfl)
        rcases hinv with h0 | ⟨b, cb, hbc, _, _⟩
        · rw [h0] at hv; exact absurd hv (by simp)
        · simp only [roundBest] at h
          rw [hbc] at h; exact absurd h (by simp)
    · exact Or.inl hf
  · intro h
    simp only [roundBest]
    rw [foldl_skip score df minObs chosen avail (none, none) h]

lemma greedyLoop_length (score : DataFrame → List Col → Option ℚ) (df : DataFrame)
    (minObs : Nat) (avail : List Col) :
    ∀ (n : Nat) (chosen : List Col),
      (greedyLoop score df minObs avail n chosen).length ≤ chosen.length + n := by
  intro n
  induction n with
  | zero => intro chosen; simp [greedyLoop]
  | succ n ih =>
    intro chosen
    rw [greedyLoop]
    cases h : (roundBest score df minObs avail chosen).2 with
    | none => simp
    | some c =>
      calc (greedyLoop score df minObs avail n (chosen ++ [c])).length
          ≤ (chosen ++ [c]).length + n := ih (chosen ++ [c])
        _ = chosen.length + (n + 1) := by simp [List.length_append]; ring

/-- C1: the final clause of the claim fails on a well-posed trace: with
`min_obs = 3`, `min_factors = 2`, `max_factors = 5` the greedy phase fits
exactly one regression — trial `["d"]` on three complete rows, whose
adjusted R² is a finite number — and chooses `["d"]`; the `min_factors`
adjustment then replaces the chosen set with the first two eligible
candidates `["a", "b"]`, dropping the already-chosen factor `d` from the
result. -/
theorem C1_counterexample :
    greedyChosen exScore exDf ["a", "b", "d"] 3 5 = ["d"] ∧
    pickBestModel exScore [] exDf ["a", "b", "d"] 3 2 5 = ["a", "b"] ∧
    "d" ∉ pickBestModel exScore [] exDf ["a", "b", "d"] 3 2 5 := by
  refine ⟨by decide, by decide, by decide⟩

/-- **C1** (amended): the greedy selector starts from an empty chosen set,
runs at most `max_factors` rounds, at each round the winner is a
not-yet-chosen eligible candidate whose trial frame (rows where the
dependent variable and all trial columns are present) keeps at least
`min_obs` rows and whose adjusted R² is an actual number, maximal among
the defined (non-`NaN`) adjusted R²s of such candidates; it stops early
when no such candidate exists; and, if the final chosen set is smaller
than the configured minimum, the chosen set is REPLACED by the first
`min_factors` eligible candidates in priority order (all eligible
candidates when fewer exist) — already-chosen factors are not necessarily
retained. -/
theorem C1_greedy_selector (score : DataFrame → List Col → Option ℚ)
    (fe : List (Option ℚ)) (df : DataFrame) (cands : List Col)
    (minObs minF maxF : Nat) :
    pickBestModel score fe df cands minObs minF maxF =
      (if (greedyChosen score df cands minObs maxF).length < minF then
        (if minF ≤ (availableCands df cands minObs).length then
          (availableCands df cands minObs).take minF
        else availableCands df cands minObs)
      else greedyChosen score df cands minObs maxF) ∧
    availableCands df cands minObs =
      cands.filter (fun c => hasCol df c && decide (minObs < notnaCount df c)) ∧
    (greedyChosen score df cands minObs maxF).length ≤ maxF ∧
    (∀ chosen c,
      (roundBest score df minObs (availableCands df cands minObs) chosen).2 = some c →
        c ∈ availableCands df cands minObs ∧ c ∉ chosen ∧
        minObs ≤ nRows (trialFrame df chosen c) ∧
        ∃ bv, trialScore score df chosen c = some bv ∧
          ∀ c' ∈ availableCands df cands minObs, c' ∉ chosen →
            minObs ≤ nRows (trialFrame df chosen c') →
            ∀ a, trialScore score df chosen c' = some a → a ≤ bv) ∧
    (∀ chosen n,
      (roundBest score df minObs (availableCands df cands minObs) chosen).2 = none →
        greedyLoop score df minObs (availableCands df cands minObs) (n + 1) chosen
          = chosen) := by
  refine ⟨rfl, rfl, ?_, ?_, ?_⟩
  · have h := greedyLoop_length score df minObs (availableCands df cands minObs)
      maxF []
    simpa [greedyChosen] using h
  · intro chosen c h
    obtain ⟨hmem, hfit, bv, hbv, hmax⟩ :=
      roundBest_some_spec score df minObs _ chosen c h
    refine ⟨hmem, hfit.1, hfit.2, bv, hbv, ?_⟩
    intro c' hc' hnc' hsz' a hsc'
    exact hmax c' hc' ⟨hnc', hsz'⟩ a hsc'
  · intro chosen n h
    rw [greedyLoop, h]

/-- C1 witness: the amended characterization applied to the concrete data:
`d` does win the first round (fittable trial, defined adjusted R²), and a
round with winner `none` ends the loop. -/
theorem C1_greedy_selector_witness :
    "d" ∈ availableCands exDf ["a", "b", "d"] 3 ∧
    "d" ∉ ([] : List Col) ∧
    3 ≤ nRows (trialFrame exDf [] "d") ∧
    greedyLoop exScore exDf 3 (availableCands exDf ["a", "b", "d"] 3) 5 ["d"]
      = ["d"] := by
  have h := (C1_greedy_selector exScore [] exDf ["a", "b", "d"] 3 2 5).2.2.2.1
    [] "d" (by decide)
  have h2 := (C1_greedy_selector exScore [] exDf ["a", "b", "d"] 3 2 5).2.2.2.2
    ["d"] 4 (by decide)
  exact ⟨h.1, h.2.1, h.2.2.1, h2⟩

/-- **C2**: the greedy selector is deterministic (a pure function of its
inputs: two runs on identical input agree), and ties are broken in favour
of the candidate encountered first: appending a candidate whose adjusted
R² equals the current best does not change the winner of the round. -/
theorem C2_deterministic_tiebreak :
    (∀ (score : DataFrame → List Col → Option ℚ) (fe : List (Option ℚ))
        (df : DataFrame) (cands : List Col) (minObs minF maxF : Nat),
        pickBestModel score fe df cands minObs minF maxF =
        pickBestModel score fe df cands minObs minF maxF) ∧
    (∀ (score : DataFrame → List Col → Option ℚ) (df : DataFrame) (minObs : Nat)
        (chosen l : List Col) (b : ℚ) (cb c : Col),
        roundBest score df minObs l chosen = (some b, some cb) →
        c ∉ chosen → minObs ≤ nRows (trialFrame df chosen c) →
        trialScore score df chosen c = some b →
        roundBest score df minObs (l ++ [c]) chosen = (some b, some cb)) := by
  refine ⟨fun _ _ _ _ _ _ _ => rfl, ?_⟩
  intro score df minObs chosen l b cb c h hnc hsz hval
  simp only [roundBest] at h ⊢
  rw [List.foldl_append, h, List.foldl_cons, List.foldl_nil,
    innerStep_of_fittable_val_some ⟨hnc, hsz⟩ hval rfl, if_neg (lt_irrefl b)]

/-- C2 witness: with equal scores, `a` (encountered first) remains the
winner after `b` is also examined. -/
theorem C2_deterministic_tiebreak_witness :
    roundBest tieScore tieDf 1 (["a"] ++ ["b"]) [] = (some 1, some "a") :=
  C2_deterministic_tiebreak.2 tieScore tieDf 1 [] ["a"] 1 "a" "b"
    (by decide) (by decide) (by decide) (by decide)

/-- **C10**: `_pick_best_model` never reads its `fund_excess` parameter —
the dependent variable of every trial fit is the frame column
`"fund_excess"` — so its result is the same for any two series passed there. -/
theorem C10_fund_excess_param_unused (score : DataFrame → List Col → Option ℚ)
    (s1 s2 : List (Option ℚ)) (df : DataFrame) (cands : List Col)
    (minObs minF maxF : Nat) (_h : hasCol df "fund_excess" = true) :
    pickBestModel score s1 df cands minObs minF maxF =
    pickBestModel score s2 df cands minObs minF maxF := rfl

/-- C10 witness: two different series passed as the unused parameter give
the same selection on a concrete frame containing `fund_excess`. -/
theorem C10_fund_excess_param_unused_witness :
    pickBestModel tieScore [some 1, none] tieDf ["a", "b"] 1 1 2 =
    pickBestModel tieScore [] tieDf ["a", "b"] 1 1 2 :=
  C10_fund_excess_param_unused tieScore [some 1, none] [] tieDf ["a", "b"]
    1 1 2 (by decide)

end Select
namespace OLS

lemma ssrOf_nonneg (β : List ℚ) (s : Sample) : 0 ≤ ssrOf β s := by
  apply List.sum_nonneg
  intro x hx
  obtain ⟨o, _, rfl⟩ := List.mem_map.mp hx
  exact sq_nonneg _

lemma syy_nonneg (s : Sample) : 0 ≤ syy s := by
  apply List.sum_nonneg
  intro x hx
  obtain ⟨o, _, rfl⟩ := List.mem_map.mp hx
  exact sq_nonneg _

lemma dot_single (m : ℚ) (xs : List ℚ) : dot [m] (1 :: xs) = m := by
  rw [dot]
  simp

/-- Using only the intercept, set to the mean of `y`, realizes the
centered total sum of squares as a residual sum of squares. -/
lemma ssrOf_meanY (s : Sample) : ssrOf [meanY s] s = syy s := by
  rw [ssrOf, syy]
  congr 1
  apply List.map_congr_left
  intro o _
  rw [residAt, fittedAt, dot_single]

/-- The fitted coefficients never do worse than the intercept-only model,
so `ssr ≤ centered_tss`. -/
lemma ssr_le_syy (β : List ℚ) (s : Sample) (hfit : IsOLSFit β s) :
    ssrOf β s ≤ syy s := by
  have h := hfit [meanY s]
  rw [ssrOf_meanY] at h
  exact h

/-- A coefficient vector with zero residual sum of squares is a
least-squares fit. -/
lemma isOLSFit_of_ssr_zero {β : List ℚ} {s : Sample}
    (h : ssrOf β s = 0) : IsOLSFit β s := by
  intro γ
  rw [h]
  exact ssrOf_nonneg γ s

/-- C7: the claim fails as universally stated: with `y` constant over
three observations of a single-regressor fit with intercept (so
`nobs = regressors + 2`), the least-squares coefficients are `[1, 0]`,
the centered total sum of squares is zero, and `model.rsquared` is the
float `NaN` (`none`), which does not satisfy `0 ≤ R² ≤ 1`. -/
theorem C7_counterexample :
    nObs constYSample = 1 + 2 ∧
    IsOLSFit [1, 0] constYSample ∧
    (regression_diagnostics [1, 0] constYSample 1).r2 = none ∧
    ¬ ∃ r : ℚ, (regression_diagnostics [1, 0] constYSample 1).r2 = some r ∧
      0 ≤ r ∧ r ≤ 1 := by
  have hssr : ssrOf [1, 0] constYSample = 0 := by
    rw [ssrOf]
    norm_num [constYSample, residAt, fittedAt, dot, List.zipWith]
  have h2 : (regression_diagnostics [1, 0] constYSample 1).r2 = none := by
    show rsquared [1, 0] constYSample = none
    rw [rsquared, if_pos]
    rw [syy, meanY, nObs]
    norm_num [constYSample]
  refine ⟨rfl, isOLSFit_of_ssr_zero hssr, h2, ?_⟩
  rintro ⟨r, hr, -⟩
  rw [h2] at hr
  exact Option.noConfusion hr

/-- **C7** (amended): for every OLS fit with intercept on `k` regressors
whose observation count exceeds `k` by at least 2 AND whose dependent
variable is not constant (nonzero centered total sum of squares), the R²
in the diagnostics record is defined and satisfies `0 ≤ R² ≤ 1`; when the
dependent variable is constant, R² is `NaN`. -/
theorem C7_r2_bounds (s : Sample) (β : List ℚ) (k : ℕ)
    (hfit : IsOLSFit β s) (_hn : k + 2 ≤ nObs s) (hy : syy s ≠ 0) :
    (regression_diagnostics β s k).r2 = some (1 - ssrOf β s / syy s) ∧
    0 ≤ 1 - ssrOf β s / syy s ∧ 1 - ssrOf β s / syy s ≤ 1 := by
  have hypos : 0 < syy s := lt_of_le_of_ne (syy_nonneg s) (Ne.symm hy)
  refine ⟨?_, ?_, ?_⟩
  · show rsquared β s = _
    rw [rsquared, if_neg hy]
  · have h1 : ssrOf β s / syy s ≤ 1 :=
      (div_le_one hypos).mpr (ssr_le_syy β s hfit)
    linarith
  · have h0 : 0 ≤ ssrOf β s / syy s :=
      div_nonneg (ssrOf_nonneg β s) (le_of_lt hypos)
    linarith

/-- C7 witness: the amended bound applied to a concrete well-posed
three-observation single-regressor fit whose exact least-squares
coefficients are `[0, 1]`. -/
theorem C7_r2_bounds_witness :
    ssrOf [0, 1] linYSample = 0 ∧
    1 + 2 ≤ nObs linYSample ∧
    syy linYSample ≠ 0 ∧
    (regression_diagnostics [0, 1] linYSample 1).r2 =
      some (1 - ssrOf [0, 1] linYSample / syy linYSample) ∧
    0 ≤ 1 - ssrOf [0, 1] linYSample / syy linYSample ∧
    1 - ssrOf [0, 1] linYSample / syy linYSample ≤ 1 := by
  have hssr : ssrOf [0, 1] linYSample = 0 := by
    rw [ssrOf]
    norm_num [linYSample, residAt, fittedAt, dot, List.zipWith]
  have hy : syy linYSample ≠ 0 := by
    rw [syy, meanY, nObs]
    norm_num [linYSample]
  exact ⟨hssr, by norm_num [nObs, linYSample], hy,
    C7_r2_bounds linYSample [0, 1] 1 (isOLSFit_of_ssr_zero hssr)
      (by norm_num [nObs, linYSample]) hy⟩

end OLS
end Q3
namespace Q1

open Q3.Select

lemma getCol_map_self (cs : List Col) (g : Col → Column) (c : Col)
    (h : c ∈ cs) :
    getCol (cs.map (fun c' => (c', g c'))) c = some (g c) := by
  induction cs with
  | nil => cases h
  | cons a tl ih =>
    rw [List.map_cons, getCol]
    by_cases hac : a = c
    · subst hac
      rw [List.find?_cons_of_pos _ (by simp)]
      rfl
    · have hmem : c ∈ tl := by
        rcases List.mem_cons.mp h with h1 | h2
        · exact absurd h1.symm hac
        · exact h2
      rw [List.find?_cons_of_neg _ (by simp [hac])]
      exact ih hmem

lemma colVals_subFrame (df : DataFrame) (cs : List Col) (c : Col)
    (h : c ∈ cs) :
    colVals (subFrame df cs) c =
      (completeIdxs df cs).map (fun i => (colVals df c).getD i none) := by
  simp only [subFrame]
  rw [colVals]
  rw [getCol_map_self cs
    (fun c' => (completeIdxs df cs).map (fun i => (colVals df c').getD i none))
    c h]
  rfl

lemma t5a_vals : retainedVals t5a "SP500" = [0, 1, 2] := rfl

lemma t5b_vals : retainedVals t5b "SP500" = [0, 2] := rfl

lemma vol_t5a : (statsFor t5a "TBill" "SP500").volatility = some 1 := by
  show stdDev (retainedVals t5a "SP500") = some 1
  rw [t5a_vals, stdDev]
  have hq : qvar [0, 1, 2] = 1 := by norm_num [qvar, qmean]
  rw [hq]
  norm_num

lemma vol_t5b : (statsFor t5b "TBill" "SP500").volatility
    = some (Real.sqrt 2) := by
  show stdDev (retainedVals t5b "SP500") = some (Real.sqrt 2)
  rw [t5b_vals, stdDev]
  have hq : qvar [0, 2] = 2 := by norm_num [qvar, qmean]
  rw [hq]
  norm_num

lemma vol_tConst : (statsFor tConst "TBill" "SP500").volatility = some 0 := by
  show stdDev (retainedVals tConst "SP500") = some 0
  have hv : retainedVals tConst "SP500" = [1, 1, 1] := rfl
  rw [hv, stdDev]
  have hq : qvar [1, 1, 1] = 0 := by norm_num [qvar, qmean]
  rw [hq]
  norm_num

/-- C5: the claim fails: the tables `t5a` and `t5b` have identical `SP500`
columns and differ only in a missing `Gold` value, yet `stats_table`
reports different `SP500` volatilities (1 versus √2), because `dropna` is
applied jointly across the selected columns. -/
theorem C5_counterexample :
    colVals t5a "SP500" = colVals t5b "SP500" ∧
    (statsFor t5a "TBill" "SP500").volatility ≠
      (statsFor t5b "TBill" "SP500").volatility := by
  refine ⟨rfl, ?_⟩
  rw [vol_t5a, vol_t5b]
  intro h
  have h2 : (1 : ℝ) = Real.sqrt 2 := Option.some.inj h
  have h3 : ((1 : ℝ)) ^ 2 = (Real.sqrt 2) ^ 2 := by rw [h2]
  rw [Real.sq_sqrt (by norm_num : (0:ℝ) ≤ 2)] at h3
  norm_num at h3

/-- **C5** (amended): missing-data handling in `stats_table` is joint
across the selected asset columns: exactly the periods with a missing
value in ANY selected column are dropped, for all columns at once, before
the statistics of any asset are computed — so the reported statistics of an
asset
can depend on which periods are missing in other asset columns. -/
theorem C5_joint_missing_handling :
    (∀ (df : DataFrame) (c : String), c ∈ statsCols df →
      colVals (retained df) c =
        (completeIdxs df (statsCols df)).map
          (fun i => (colVals df c).getD i none)) ∧
    colVals t5a "SP500" = colVals t5b "SP500" ∧
    (statsFor t5a "TBill" "SP500").volatility = some 1 ∧
    (statsFor t5b "TBill" "SP500").volatility = some (Real.sqrt 2) ∧
    (some (1 : ℝ)) ≠ (some (Real.sqrt 2)) := by
  refine ⟨?_, rfl, vol_t5a, vol_t5b, ?_⟩
  · intro df c hc
    rw [retained]
    exact colVals_subFrame df (statsCols df) c hc
  · intro h
    have h2 : (1 : ℝ) = Real.sqrt 2 := Option.some.inj h
    have h3 : ((1 : ℝ)) ^ 2 = (Real.sqrt 2) ^ 2 := by rw [h2]
    rw [Real.sq_sqrt (by norm_num : (0:ℝ) ≤ 2)] at h3
    norm_num at h3

/-- C5 witness: the joint-dropna characterization applied to the concrete
table `t5a` and its `SP500` column. -/
theorem C5_joint_missing_handling_witness :
    "SP500" ∈ statsCols t5a ∧
    colVals (retained t5a) "SP500" =
      (completeIdxs t5a (statsCols t5a)).map
        (fun i => (colVals t5a "SP500").getD i none) :=
  ⟨by decide, C5_joint_missing_handling.1 t5a "SP500" (by decide)⟩

/-- **C4**: in both summary-statistics functions the Sharpe ratio is
(reported return − risk-free term) / volatility, and a volatility that is
exactly zero — or itself undefined — yields an undefined (`NaN`) Sharpe
ratio instead of a failure (the functions are total). -/
theorem C4_sharpe_formula :
    (∀ (df : DataFrame) (rf_col c : String) (v : ℝ),
      (statsFor df rf_col c).volatility = some v → v ≠ 0 →
      (statsFor df rf_col c).sharpe_ratio =
        some (((statsFor df rf_col c).annualized_return -
          ((qmean (retainedVals df rf_col) : ℚ) : ℝ)) / v)) ∧
    (∀ (df : DataFrame) (rf_col c : String),
      (statsFor df rf_col c).volatility = some 0 ∨
      (statsFor df rf_col c).volatility = none →
      (statsFor df rf_col c).sharpe_ratio = none) ∧
    (∀ (df : DataFrame) (rf : ℚ) (c : String) (v : ℝ),
      (summaryFor df rf c).volatility = some v → v ≠ 0 →
      (summaryFor df rf c).sharpe_ratio =
        some ((((summaryFor df rf c).mean_return - rf : ℚ) : ℝ) / v)) ∧
    (∀ (df : DataFrame) (rf : ℚ) (c : String),
      (summaryFor df rf c).volatility = some 0 ∨
      (summaryFor df rf c).volatility = none →
      (summaryFor df rf c).sharpe_ratio = none) := by
  refine ⟨?_, ?_, ?_, ?_⟩
  · intro df rf_col c v hv hvne
    simp only [statsFor] at hv ⊢
    rw [hv]
    simp [hvne]
  · intro df rf_col c hv
    simp only [statsFor] at hv ⊢
    rcases hv with hv | hv
    · rw [hv]
      simp
    · rw [hv]
  · intro df rf c v hv hvne
    simp only [summaryFor] at hv ⊢
    rw [hv]
    simp [hvne]
  · intro df rf c hv
    simp only [summaryFor] at hv ⊢
    rcases hv with hv | hv
    · rw [hv]
      simp
    · rw [hv]

/-- C4 witness: the formula on a non-degenerate concrete column and the
`NaN` guard on a constant (zero-volatility) concrete column. -/
theorem C4_sharpe_formula_witness :
    (statsFor t5a "TBill" "SP500").sharpe_ratio =
      some (((statsFor t5a "TBill" "SP500").annualized_return -
        ((qmean (retainedVals t5a "TBill") : ℚ) : ℝ)) / 1) ∧
    (statsFor tConst "TBill" "SP500").sharpe_ratio = none :=
  ⟨C4_sharpe_formula.1 t5a "TBill" "SP500" 1 vol_t5a one_ne_zero,
   C4_sharpe_formula.2.1 tConst "TBill" "SP500" (Or.inl vol_tConst)⟩

lemma cube_root_gt {c a : ℝ} (hc : 0 ≤ c) (h : c ^ (3 : ℕ) < a) :
    c < a ^ ((1 : ℝ) / 3) := by
  have h0 : (0 : ℝ) ≤ c ^ (3 : ℕ) := pow_nonneg hc 3
  have h1 : ((c ^ (3 : ℕ) : ℝ)) ^ ((1 : ℝ) / 3) < a ^ ((1 : ℝ) / 3) :=
    Real.rpow_lt_rpow h0 h (by norm_num)
  calc c = (c ^ (3 : ℕ)) ^ ((1 : ℝ) / 3) := by
        rw [← Real.rpow_natCast c 3, ← Real.rpow_mul hc]
        norm_num
    _ < a ^ ((1 : ℝ) / 3) := h1

lemma cube_root_lt {c a : ℝ} (hc : 0 ≤ c) (ha : 0 ≤ a)
    (h : a < c ^ (3 : ℕ)) : a ^ ((1 : ℝ) / 3) < c := by
  have h1 : a ^ ((1 : ℝ) / 3) < ((c ^ (3 : ℕ) : ℝ)) ^ ((1 : ℝ) / 3) :=
    Real.rpow_lt_rpow ha h (by norm_num)
  calc a ^ ((1 : ℝ) / 3) < (c ^ (3 : ℕ)) ^ ((1 : ℝ) / 3) := h1
    _ = c := by
        rw [← Real.rpow_natCast c 3, ← Real.rpow_mul hc]
        norm_num

lemma exReturns_wealth : wealthMultiple exReturns = 5643 / 5000 := by
  rw [wealthMultiple, exReturns]
  simp only [List.map_cons, List.map_nil, List.prod_cons, List.prod_nil]
  norm_num

lemma exReturns_ann :
    annualizedOf exReturns = (5643 / 5000 : ℝ) ^ ((1 : ℝ) / 3) - 1 := by
  rw [annualizedOf, exReturns_wealth]
  have hl : ((exReturns.length : ℕ) : ℝ) = 3 := by rw [exReturns]; norm_num
  rw [hl]

lemma exReturns_ann_gt : (0.041 : ℝ) < annualizedOf exReturns := by
  rw [exReturns_ann]
  have h : (1.041 : ℝ) < (5643 / 5000 : ℝ) ^ ((1 : ℝ) / 3) := by
    apply cube_root_gt (by norm_num)
    norm_num
  linarith

lemma exReturns_ann_lt : annualizedOf exReturns < (0.0412 : ℝ) := by
  rw [exReturns_ann]
  have h : (5643 / 5000 : ℝ) ^ ((1 : ℝ) / 3) < (1.0412 : ℝ) := by
    apply cube_root_lt (by norm_num) (by norm_num)
    norm_num
  linarith

/-- C3: the spec's numeric example is wrong: for annual returns
[0.10, −0.05, 0.08] the geometric annualized return exceeds 0.041, so it
differs from the claimed 0.0405 by more than half a unit in the last
(fourth) decimal place — it is ≈ 0.0411, not ≈ 0.0405. -/
theorem C3_counterexample :
    ¬ |annualizedOf exReturns - 0.0405| ≤ 0.0005 := by
  intro h
  have h2 := (abs_le.mp h).2
  have h3 := exReturns_ann_gt
  linarith

/-- **C3** (amended): for every asset column the annualized return the
engine reports is the geometric mean over the retained periods — the
product of (1+r) raised to 1/n, minus one — and for the example series
[0.10, −0.05, 0.08] its value is ≈ 0.0411 (it lies in (0.041, 0.0412)),
not ≈ 0.0405. -/
theorem C3_annualized_geometric :
    (∀ (df : DataFrame) (rf_col c : String),
      (statsFor df rf_col c).annualized_return =
        wealthMultiple (retainedVals df c) ^
          ((1 : ℝ) / ((retainedVals df c).length : ℝ)) - 1) ∧
    (0.041 : ℝ) < annualizedOf exReturns ∧
    annualizedOf exReturns < (0.0412 : ℝ) ∧
    |annualizedOf exReturns - 0.0411| < 0.0005 := by
  refine ⟨fun df rf_col c => rfl, exReturns_ann_gt, exReturns_ann_lt, ?_⟩
  have h1 := exReturns_ann_gt
  have h2 := exReturns_ann_lt
  rw [abs_lt]
  constructor <;> linarith

/-- **C8**: for every nonempty return series with nonnegative gross
returns (1 + r ≥ 0, as for any priced asset), re-compounding the
geometric annualized return over the n periods reproduces the terminal
wealth multiple exactly in the real model (hence to floating-point
tolerance in the implementation). -/
theorem C8_recompound (vs : List ℚ) (h1 : vs ≠ [])
    (h2 : ∀ r ∈ vs, (0 : ℝ) ≤ 1 + (r : ℝ)) :
    (1 + annualizedOf vs) ^ vs.length = wealthMultiple vs := by
  have hW : 0 ≤ wealthMultiple vs := by
    clear h1
    induction vs with
    | nil => simp [wealthMultiple]
    | cons a tl ih =>
      rw [wealthMultiple, List.map_cons, List.prod_cons]
      refine mul_nonneg (h2 a (List.mem_cons_self a tl)) ?_
      exact ih (fun r hr => h2 r (List.mem_cons_of_mem a hr))
  have hn : ((vs.length : ℝ)) ≠ 0 := by
    have : vs.length ≠ 0 := fun h => h1 (List.length_eq_zero.mp h)
    exact_mod_cast this
  have hsimp : (1 : ℝ) + annualizedOf vs =
      wealthMultiple vs ^ ((1 : ℝ) / (vs.length : ℝ)) := by
    rw [annualizedOf]; ring
  rw [hsimp, ← Real.rpow_natCast
    (wealthMultiple vs ^ ((1 : ℝ) / (vs.length : ℝ))) vs.length,
    ← Real.rpow_mul hW, one_div, inv_mul_cancel₀ hn, Real.rpow_one]

/-- C8 witness: the identity applied to the concrete two-period series
[1, 0] (returns +100% and 0%), whose terminal wealth multiple is 2. -/
theorem C8_recompound_witness :
    ([(1 : ℚ), 0] ≠ ([] : List ℚ)) ∧
    (1 + annualizedOf [(1 : ℚ), 0]) ^ (2 : ℕ) = wealthMultiple [(1 : ℚ), 0] :=
  ⟨by simp, C8_recompound [(1 : ℚ), 0] (by simp) (by
    intro r hr
    rcases List.mem_cons.mp hr with h | h
    · subst h; norm_num
    · rcases List.mem_cons.mp h with h' | h'
      · subst h'; norm_num
      · cases h')⟩

end Q1
namespace Q3

lemma insertUniqueSorted_chain (x : ℤ) :
    ∀ (l : List ℤ), l.Chain' (· < ·) →
      (insertUniqueSorted x l).Chain' (· < ·) ∧
      ((insertUniqueSorted x l).head? = some x ∨
        (insertUniqueSorted x l).head? = l.head?) := by
  intro l
  induction l with
  | nil => intro _; exact ⟨List.chain'_singleton x, Or.inl rfl⟩
  | cons y ys ih =>
    intro h
    rw [insertUniqueSorted]
    by_cases h1 : x < y
    · rw [if_pos h1]
      exact ⟨List.Chain'.cons h1 h, Or.inl rfl⟩
    · rw [if_neg h1]
      by_cases h2 : x = y
      · rw [if_pos h2]
        exact ⟨h, Or.inr rfl⟩
      · rw [if_neg h2]
        have hyx : y < x := lt_of_le_of_ne (not_lt.mp h1) (Ne.symm h2)
        have htl : ys.Chain' (· < ·) := h.tail
        obtain ⟨hc, hh⟩ := ih htl
        refine ⟨List.chain'_cons'.mpr ⟨?_, hc⟩, Or.inr rfl⟩
        intro z hz
        rcases hh with hh | hh
        · rw [hh] at hz
          have hzx : x = z := by injection hz
          rw [← hzx]
          exact hyx
        · rw [hh] at hz
          exact (List.chain'_cons'.mp h).1 z hz

lemma uniqueSortedKeys_chain (ms : List ℤ) :
    (uniqueSortedKeys ms).Chain' (· < ·) := by
  induction ms with
  | nil => exact List.chain'_nil
  | cons a tl ih =>
    rw [uniqueSortedKeys, List.foldr_cons]
    exact (insertUniqueSorted_chain a _ ih).1

namespace Load

lemma map_fst_map_pair {β : Type} (l : List ℤ) (g : ℤ → β) :
    ((l.map (fun m => (m, g m))).map Prod.fst) = l := by
  induction l with
  | nil => rfl
  | cons a tl ih => simp only [List.map_cons, ih]

/-- C9: the claim fails on `load_fund_monthly_returns`: two observations
dated inside the same month both map to the same month end, and the loader
neither deduplicates nor aggregates them — the output dates are `[0, 0]`,
not strictly increasing. -/
theorem C9_counterexample :
    (load_fund_monthly_returns fundDup).map Prod.fst = [0, 0] ∧
    ¬ ((load_fund_monthly_returns fundDup).map Prod.fst).Chain' (· < ·) ∧
    ¬ ((load_fund_monthly_returns fundDup).map Prod.fst).Nodup := by
  have h0 : (load_fund_monthly_returns fundDup).map Prod.fst = [0, 0] := rfl
  refine ⟨h0, ?_, ?_⟩
  · rw [h0]
    simp [List.chain'_cons]
  · rw [h0]
    simp

/-- **C9** (amended): `load_ff5_monthly` always returns strictly
increasing month-end dates with no month twice (`groupby` produces a
sorted duplicate-free index); `load_fund_monthly_returns` returns dates
sorted nondecreasingly, and they are strictly increasing with no
duplicates provided the input file holds at most one (non-missing)
observation per month. -/
theorem C9_loader_date_invariant :
    (∀ rows : List FFRow,
      ((load_ff5_monthly rows).map Prod.fst).Chain' (· < ·)) ∧
    (∀ rows : List (RawDate × Option ℚ),
      ((load_fund_monthly_returns rows).map Prod.fst).Pairwise (· ≤ ·)) ∧
    (∀ rows : List (RawDate × Option ℚ),
      (rows.filterMap (fun p => p.2.map (fun _ => p.1.month))).Nodup →
      ((load_fund_monthly_returns rows).map Prod.fst).Chain' (· < ·)) := by
  have hsorted : ∀ rows : List (RawDate × Option ℚ),
      ((load_fund_monthly_returns rows).map Prod.fst).Pairwise (· ≤ ·) := by
    intro rows
    have hs : (load_fund_monthly_returns rows).Pairwise keyLE :=
      List.sorted_insertionSort keyLE _
    exact hs.map Prod.fst (fun a b h => h)
  refine ⟨?_, hsorted, ?_⟩
  · intro rows
    rw [load_ff5_monthly, map_fst_map_pair]
    exact uniqueSortedKeys_chain _
  · intro rows h
    have hperm : List.Perm (load_fund_monthly_returns rows)
        (rows.filterMap (fun p => p.2.map (fun v => (p.1.month, v)))) :=
      List.perm_insertionSort keyLE _
    have hpermf : List.Perm ((load_fund_monthly_returns rows).map Prod.fst)
        (rows.filterMap (fun p => p.2.map (fun _ => p.1.month))) := by
      have h1 := hperm.map Prod.fst
      have h2 : (rows.filterMap
          (fun p => p.2.map (fun v => (p.1.month, v)))).map Prod.fst =
          rows.filterMap (fun p => p.2.map (fun _ => p.1.month)) := by
        rw [List.map_filterMap]
        congr 1
        funext p
        cases p.2 <;> rfl
      rw [h2] at h1
      exact h1
    have hnodup : ((load_fund_monthly_returns rows).map Prod.fst).Nodup :=
      hpermf.nodup_iff.mpr h
    have hlt : ((load_fund_monthly_returns rows).map Prod.fst).Pairwise
        (· < ·) :=
      ((hsorted rows).and hnodup).imp (fun hab => lt_of_le_of_ne hab.1 hab.2)
    exact hlt.chain'

/-- C9 witness: the strengthened conclusion applied to a concrete input
with one observation per month. -/
theorem C9_loader_date_invariant_witness :
    (fundOk.filterMap (fun p => p.2.map (fun _ => p.1.month))).Nodup ∧
    ((load_fund_monthly_returns fundOk).map Prod.fst).Chain' (· < ·) :=
  ⟨by decide, C9_loader_date_invariant.2.2 fundOk (by decide)⟩

end Load
namespace Fetch

/-- **C6**: for each online factor source (FRED and AQR alike), when the
fetch raises and a previously cached (hence date-sorted) CSV with the same
values exists, the merged factor table is identical to the one a
successful fetch of those values produces; and when the fetch raises with no cache present — for
AQR also when a nominally successful fetch comes back empty, which raises
`RuntimeError` inside the same `try` — that source contributes an empty
frame, a warning is recorded, and the (total) function still returns. -/
theorem C6_fetch_fallback :
    (∀ (env : FetchEnv) (start : ℤ) (e : String) (df : Frame),
      df.Pairwise keyLE →
      (fetch_all_external_factors
        { env with fredFetch := .error e, fredCache := some df } start).frame =
      (fetch_all_external_factors
        { env with fredFetch := .ok df } start).frame) ∧
    (∀ (env : FetchEnv) (start : ℤ) (e : String) (df : Frame),
      df.Pairwise keyLE → df ≠ [] →
      (fetch_all_external_factors
        { env with aqrFetch := .error e, aqrCache := some df } start).frame =
      (fetch_all_external_factors
        { env with aqrFetch := .ok df } start).frame) ∧
    (∀ (env : FetchEnv) (start : ℤ) (e : String),
      (fetch_all_external_factors
          { env with fredFetch := .error e, fredCache := none } start).frame =
        mergeAll []
          (aqrStep { env with fredFetch := .error e, fredCache := none }).1
          env.jkp start ∧
      (fetch_all_external_factors
          { env with fredFetch := .error e, fredCache := none } start).warnings
        ≠ []) ∧
    (∀ (env : FetchEnv) (start : ℤ) (e : String),
      (fetch_all_external_factors
          { env with aqrFetch := .error e, aqrCache := none } start).frame =
        mergeAll
          (fredStep { env with aqrFetch := .error e, aqrCache := none }).1
          [] env.jkp start ∧
      (fetch_all_external_factors
          { env with aqrFetch := .error e, aqrCache := none } start).warnings
        ≠ []) ∧
    (∀ (env : FetchEnv) (start : ℤ),
      (fetch_all_external_factors
          { env with aqrFetch := .ok [], aqrCache := none } start).frame =
        mergeAll
          (fredStep { env with aqrFetch := .ok [], aqrCache := none }).1
          [] env.jkp start ∧
      (fetch_all_external_factors
          { env with aqrFetch := .ok [], aqrCache := none } start).warnings
        ≠ []) := by
  refine ⟨?_, ?_, ?_, ?_, ?_⟩
  · intro env start e df hs
    have h2 : loadCsvFallback df = df := List.Sorted.insertionSort_eq hs
    show mergeAll (loadCsvFallback df) (aqrStep env).1 env.jkp start =
      mergeAll df (aqrStep env).1 env.jkp start
    rw [h2]
  · intro env start e df hs hne
    have h2 : loadCsvFallback df = df := List.Sorted.insertionSort_eq hs
    have hempty : df.isEmpty = false := by
      cases df with
      | nil => exact absurd rfl hne
      | cons a l => rfl
    have hR : (aqrStep { env with aqrFetch := .ok df }).1 = df := by
      show (if df.isEmpty then _ else (df, ([] : List String), some df)).1 = df
      rw [hempty]
      rfl
    show mergeAll (fredStep env).1 (loadCsvFallback df) env.jkp start =
      mergeAll (fredStep env).1
        (aqrStep { env with aqrFetch := .ok df }).1 env.jkp start
    rw [h2, hR]
  · intro env start e
    refine ⟨rfl, ?_⟩
    show ("FRED online failed (" ++ e ++ "); no cache available.") ::
        (aqrStep { env with fredFetch := .error e, fredCache := none }).2.1 ≠ []
    exact List.cons_ne_nil _ _
  · intro env start e
    refine ⟨rfl, ?_⟩
    intro hcon
    have hcon2 : (fredStep { env with aqrFetch := .error e, aqrCache := none }).2.1 ++
        ["AQR online failed (" ++ e ++ "); no cache available."] = [] := hcon
    exact List.cons_ne_nil _ _ (List.append_eq_nil.mp hcon2).2
  · intro env start
    refine ⟨rfl, ?_⟩
    intro hcon
    have hcon2 : (fredStep { env with aqrFetch := .ok [], aqrCache := none }).2.1 ++
        ["AQR online failed (AQR returned empty data); no cache available."]
        = [] := hcon
    exact List.cons_ne_nil _ _ (List.append_eq_nil.mp hcon2).2

/-- C6 witness: fallback-equals-success applied concretely, for FRED and
for AQR. -/
theorem C6_fetch_fallback_witness :
    (fetch_all_external_factors
        { env6 with fredFetch := .error "boom", fredCache := some df6 } 0).frame =
      (fetch_all_external_factors { env6 with fredFetch := .ok df6 } 0).frame ∧
    (fetch_all_external_factors
        { env6 with aqrFetch := .error "boom", aqrCache := some df6 } 0).frame =
      (fetch_all_external_factors { env6 with aqrFetch := .ok df6 } 0).frame :=
  ⟨C6_fetch_fallback.1 env6 0 "boom" df6 (by decide),
   C6_fetch_fallback.2.1 env6 0 "boom" df6 (by decide) (by decide)⟩

end Fetch
end Q3
